import Mathlib

/-!
Verification of the portfolio backend's token lifecycle, project soft-delete,
and contact-message handling, as a shallow embedding of the JavaScript source
(Express route handlers, the JWT token service, the express-validator chains,
and the frontend `ApiClient`).  Database tables are embedded as Lean lists,
timestamps as natural numbers (milliseconds), and the external `jsonwebtoken`
library as a structural model of signed tokens.
-/

namespace Portfolio

/-! ## Generic list machinery

`sortBy` is an insertion sort used to embed the persistence boundary's
`orderBy` clauses; only membership and sorted-input behaviour matter for the
theorems below. -/

def insertBy {α : Type} (le : α → α → Bool) (a : α) : List α → List α
  | [] => [a]
  | b :: l => if le a b then a :: b :: l else b :: insertBy le a l

def sortBy {α : Type} (le : α → α → Bool) : List α → List α
  | [] => []
  | a :: l => insertBy le a (sortBy le l)

theorem mem_insertBy {α : Type} (le : α → α → Bool) (a x : α) (l : List α) :
    x ∈ insertBy le a l ↔ x = a ∨ x ∈ l := by
  induction l with
  | nil => simp [insertBy]
  | cons b l ih =>
    simp only [insertBy]
    split
    · simp [List.mem_cons]
    · simp only [List.mem_cons, ih]
      tauto

theorem mem_sortBy {α : Type} (le : α → α → Bool) (x : α) (l : List α) :
    x ∈ sortBy le l ↔ x ∈ l := by
  induction l with
  | nil => simp [sortBy]
  | cons a l ih => simp [sortBy, mem_insertBy, ih]

theorem insertBy_of_forall_le {α : Type} (le : α → α → Bool) (a : α) (l : List α)
    (h : ∀ b ∈ l, le a b = true) : insertBy le a l = a :: l := by
  cases l with
  | nil => rfl
  | cons b l => simp [insertBy, h b (List.mem_cons_self b l)]

theorem sortBy_of_pairwise {α : Type} (le : α → α → Bool) (l : List α)
    (h : l.Pairwise (fun x y => le x y = true)) : sortBy le l = l := by
  induction l with
  | nil => rfl
  | cons a l ih =>
    rw [List.pairwise_cons] at h
    rw [sortBy, ih h.2, insertBy_of_forall_le le a l h.1]

/-! ## JavaScript string semantics

Models of the string primitives the handlers rely on: `String.prototype.trim`
(also applied as the express-validator `trim()` sanitizer), JavaScript
truthiness of strings and of possibly-`undefined` values, a case-insensitive
substring test for the Prisma `contains/insensitive` filters, and the
`validator.js` `isEmail` check (external library; modelled as a plain
well-formedness test — none of the proved properties depend on its exact
boundary). -/

def jsWhitespace (c : Char) : Bool :=
  c == ' ' || c == '\t' || c == '\n' || c == '\r'

def jsTrim (s : String) : String :=
  String.mk (((s.toList.dropWhile jsWhitespace).reverse.dropWhile jsWhitespace).reverse)

/-- JavaScript truthiness of a string: only the empty string is falsy. -/
def truthyString (s : String) : Bool := !(s == "")

/-- JavaScript truthiness of a possibly-`undefined`/`null` string. -/
def truthyOptString : Option String → Bool
  | none => false
  | some s => truthyString s

def charListHasPre (needle hay : List Char) : Bool :=
  match needle, hay with
  | [], _ => true
  | _ :: _, [] => false
  | a :: ns, b :: hs => a == b && charListHasPre ns hs

def charListHasSub (needle : List Char) : List Char → Bool
  | [] => needle.isEmpty
  | b :: hs => charListHasPre needle (b :: hs) || charListHasSub needle hs

/-- Case-insensitive substring test, embedding Prisma's
`{ contains: search, mode: 'insensitive' }` filter. -/
def containsInsensitive (hay needle : String) : Bool :=
  charListHasSub needle.toLower.toList hay.toLower.toList

/-- Model of `validator.js`'s `isEmail` (external to the repository): one `@`,
a nonempty local part and a dotted nonempty domain. -/
def isEmailModel (s : String) : Bool :=
  let cs := s.toList
  let before := cs.takeWhile (fun c => !(c == '@'))
  let after := (cs.dropWhile (fun c => !(c == '@'))).drop 1
  !before.isEmpty && !after.isEmpty && !(after.contains '@') && after.contains '.'

/-! ## The `jsonwebtoken` library

Signed tokens are embedded structurally: a token remembers its payload, the
secret it was signed with, its registered `iss`/`aud` claims and its absolute
expiry instant.  `jwtVerify` mirrors `jwt.verify(token, secret, options)`:
signature first, then expiry (`TokenExpiredError`), then the
audience/issuer claims (`JsonWebTokenError`); an options field of `none`
means the corresponding claim is not checked. -/

structure Jwt (α : Type) where
  payload : α
  secret : String
  iss : Option String
  aud : Option String
  exp : Nat
deriving DecidableEq

inductive JwtError where
  | tokenExpired
  | jsonWebTokenError
deriving DecidableEq

/-- `true` when no expectation is imposed or the token's claim matches it. -/
def claimOk (expected actual : Option String) : Bool :=
  match expected with
  | none => true
  | some v => actual == some v

def jwtVerify {α : Type} (t : Jwt α) (secret : String) (iss aud : Option String)
    (now : Nat) : Except JwtError α :=
  if t.secret == secret then
    if t.exp ≤ now then .error .tokenExpired
    else if claimOk aud t.aud && claimOk iss t.iss then .ok t.payload
    else .error .jsonWebTokenError
  else .error .jsonWebTokenError

/-! ## Data model

`UserRec` embeds the `User` table rows the handlers select;
`RefreshTokenRec` the `RefreshToken` table.  Identifiers and timestamps are
naturals, `TokenDB.nextId` stands in for Prisma's generated unique ids. -/

structure UserRec where
  id : Nat
  name : String
  email : String
  role : String
  isActive : Bool
deriving DecidableEq

structure RefreshTokenRec where
  id : Nat
  token : String
  userId : Nat
  expiresAt : Nat
  createdAt : Nat
deriving DecidableEq

structure TokenDB where
  records : List RefreshTokenRec
  nextId : Nat
deriving DecidableEq

/-! ## Token service (`backend/utils/jwt.js`)

Environment-derived constants: the two signing secrets are distinct opaque
strings, the lifetimes are the source defaults (`JWT_EXPIRES_IN || '15m'`,
`JWT_REFRESH_EXPIRES_IN || '7d'`) in milliseconds. -/

def envJwtSecret : String := "JWT_SECRET"
def envJwtRefreshSecret : String := "JWT_REFRESH_SECRET"
def tokenIssuer : String := "joseluiscastro-portfolio"
def tokenAudience : String := "portfolio-users"
def accessTokenLifetime : Nat := 15 * 60 * 1000
def refreshTokenLifetime : Nat := 7 * 24 * 60 * 60 * 1000

/-- Payload signed by `generateAccessToken`. -/
structure Claims where
  userId : Nat
  email : String
  role : String
  name : String
deriving DecidableEq

/-- Payload signed by `generateRefreshToken` (carries the `'refresh'` marker). -/
structure RefreshClaims where
  userId : Nat
  email : String
  tokenType : String
deriving DecidableEq

def generateAccessToken (u : UserRec) (now : Nat) : Jwt Claims :=
  { payload := { userId := u.id, email := u.email, role := u.role, name := u.name }
    secret := envJwtSecret
    iss := some tokenIssuer
    aud := some tokenAudience
    exp := now + accessTokenLifetime }

def generateRefreshToken (u : UserRec) (now : Nat) : Jwt RefreshClaims :=
  { payload := { userId := u.id, email := u.email, tokenType := "refresh" }
    secret := envJwtRefreshSecret
    iss := some tokenIssuer
    aud := some tokenAudience
    exp := now + refreshTokenLifetime }

/-- `verifyAccessToken`: the `try/catch` collapses every `jwt.verify`
failure into the single generic error message thrown by the source. -/
def verifyAccessToken (t : Jwt Claims) (now : Nat) : Except String Claims :=
  match jwtVerify t envJwtSecret (some tokenIssuer) (some tokenAudience) now with
  | .ok c => .ok c
  | .error _ => .error "Token de acceso inválido o expirado"

/-- `verifyRefreshToken`: same collapsing `try/catch`, refresh secret. -/
def verifyRefreshToken (t : Jwt RefreshClaims) (now : Nat) : Except String RefreshClaims :=
  match jwtVerify t envJwtRefreshSecret (some tokenIssuer) (some tokenAudience) now with
  | .ok c => .ok c
  | .error _ => .error "Token de refresco inválido o expirado"

/-- Descending `createdAt` order used by `findMany({orderBy: {createdAt: 'desc'}})`. -/
def newerFirst (a b : RefreshTokenRec) : Bool := decide (b.createdAt ≤ a.createdAt)

/-- First step of `saveRefreshToken`: `deleteMany` of the user's records whose
`expiresAt` lies strictly before `now`. -/
def purgeExpired (recs : List RefreshTokenRec) (userId now : Nat) : List RefreshTokenRec :=
  recs.filter fun r => !(r.userId == userId && decide (r.expiresAt < now))

/-- Second step: the user's remaining records, most recently created first. -/
def userTokensDesc (recs : List RefreshTokenRec) (userId : Nat) : List RefreshTokenRec :=
  sortBy newerFirst (recs.filter fun r => r.userId == userId)

/-- Third step: when the user already holds 5 or more records,
`existingTokens.slice(4)` (everything beyond the 4 most recent) is deleted
by id. -/
def enforceCap (recs : List RefreshTokenRec) (userId : Nat) : List RefreshTokenRec :=
  if 5 ≤ (userTokensDesc recs userId).length then
    recs.filter fun r =>
      !(((userTokensDesc recs userId).drop 4).map (fun t => t.id)).contains r.id
  else recs

/-- `saveRefreshToken(userId, token, expiresAt)` evaluated at instant `now`:
purge the user's expired records, evict past the cap, insert the new record. -/
def saveRefreshToken (db : TokenDB) (userId : Nat) (token : String)
    (expiresAt now : Nat) : TokenDB :=
  { records :=
      { id := db.nextId, token := token, userId := userId
        expiresAt := expiresAt, createdAt := now }
        :: enforceCap (purgeExpired db.records userId now) userId
    nextId := db.nextId + 1 }

/-- `generateTokenPair` persists its freshly signed refresh token (here the
opaque serialized string `tokenStr`) through `saveRefreshToken`, with the
default `'7d'` expiry computed from `now`. -/
def generateTokenPair (db : TokenDB) (u : UserRec) (tokenStr : String) (now : Nat) : TokenDB :=
  saveRefreshToken db u.id tokenStr (now + refreshTokenLifetime) now

/-- `findRefreshToken(token)`: `findFirst` over un-expired records carrying
the token string, joined with the owning user's public fields. -/
def findRefreshToken (db : TokenDB) (users : List UserRec) (token : String)
    (now : Nat) : Option (RefreshTokenRec × Option UserRec) :=
  match (db.records.filter fun r => r.token == token && decide (now < r.expiresAt)).head? with
  | none => none
  | some r => some (r, users.find? fun u => u.id == r.userId)

/-- `deleteRefreshToken(token)`: `deleteMany` by token string. -/
def deleteRefreshToken (db : TokenDB) (token : String) : TokenDB :=
  { db with records := db.records.filter fun r => !(r.token == token) }

/-- `deleteAllUserRefreshTokens(userId)`. -/
def deleteAllUserRefreshTokens (db : TokenDB) (userId : Nat) : TokenDB :=
  { db with records := db.records.filter fun r => !(r.userId == userId) }

/-- `cleanExpiredTokens()`: deletes every record with `expiresAt < now` and
returns the deleted count. -/
def cleanExpiredTokens (db : TokenDB) (now : Nat) : TokenDB × Nat :=
  ({ db with records := db.records.filter fun r => !(decide (r.expiresAt < now)) },
   (db.records.filter fun r => decide (r.expiresAt < now)).length)

/-! ## Auth routes (`backend/routes/auth.js`)

The auth router carries its own token plumbing (`generateTokens` with the
`REFRESH_TOKEN_SECRET` env var and no issuer/audience claims) and writes the
`RefreshToken` table directly, bypassing `saveRefreshToken`.  Only the
store-visible effects matter to the claims, so `registerTokenEffect` and
`loginTokenEffect` embed each handler's sequence of `refreshToken` table
operations. -/

/-- `POST /api/auth/register` stores the fresh refresh token with a hard-coded
7-day expiry; nothing else touches the `RefreshToken` table. -/
def registerTokenEffect (db : TokenDB) (userId : Nat) (token : String) (now : Nat) : TokenDB :=
  { records :=
      { id := db.nextId, token := token, userId := userId
        expiresAt := now + 7 * 24 * 60 * 60 * 1000, createdAt := now } :: db.records
    nextId := db.nextId + 1 }

/-- `POST /api/auth/login` first `deleteMany`s the user's already-expired
records, then stores the fresh refresh token (7-day expiry); no cap check. -/
def loginTokenEffect (db : TokenDB) (userId : Nat) (token : String) (now : Nat) : TokenDB :=
  { records :=
      { id := db.nextId, token := token, userId := userId
        expiresAt := now + 7 * 24 * 60 * 60 * 1000, createdAt := now }
        :: purgeExpired db.records userId now
    nextId := db.nextId + 1 }

/-- The user's live (non-expired) records, the quantity the per-account cap
talks about. -/
def liveUserTokens (db : TokenDB) (userId now : Nat) : List RefreshTokenRec :=
  db.records.filter fun r => r.userId == userId && decide (now < r.expiresAt)

/-- Response `data` object of `POST /api/auth/refresh`.  The source's success
body is `{ accessToken, user }` — it has no `refreshToken` member. -/
structure RefreshRespData where
  accessToken : Option (Jwt Claims)
  user : Option UserRec
  refreshToken : Option String
deriving DecidableEq

structure RefreshResult where
  status : Nat
  data : RefreshRespData
  db : TokenDB
deriving DecidableEq

/-- The new access token signed inside the refresh handler:
`jwt.sign({userId}, JWT_SECRET, {expiresIn: '24h' default})` — no
issuer/audience claims and only a `userId` field in the payload. -/
def refreshSignedAccessToken (uid now : Nat) : Jwt Claims :=
  { payload := { userId := uid, email := "", role := "", name := "" }
    secret := envJwtSecret
    iss := none
    aud := none
    exp := now + 24 * 60 * 60 * 1000 }

/-- `POST /api/auth/refresh`.  `verifyOutcome` is the result of
`jwt.verify(refreshToken, REFRESH_TOKEN_SECRET)` on the presented string
(the route's surrounding `try/catch` maps a thrown `JwtError` to 401); the
handler then looks the string up in the store, checks its expiry and the
owning user, and on success answers 200 with `{ accessToken, user }` without
touching the store. -/
def refreshEndpoint (db : TokenDB) (users : List UserRec) (body : Option String)
    (verifyOutcome : Except JwtError Nat) (now : Nat) : RefreshResult :=
  match body with
  | none => { status := 401, data := ⟨none, none, none⟩, db := db }
  | some t =>
    if !(truthyString t) then { status := 401, data := ⟨none, none, none⟩, db := db }
    else
      match verifyOutcome with
      | .error _ => { status := 401, data := ⟨none, none, none⟩, db := db }
      | .ok uid =>
        match db.records.find? (fun r => r.token == t) with
        | none => { status := 401, data := ⟨none, none, none⟩, db := db }
        | some stored =>
          if stored.expiresAt < now then
            { status := 401, data := ⟨none, none, none⟩, db := db }
          else
            match users.find? (fun u => u.id == uid) with
            | none => { status := 401, data := ⟨none, none, none⟩, db := db }
            | some u =>
              if !u.isActive then { status := 401, data := ⟨none, none, none⟩, db := db }
              else
                { status := 200
                  data := ⟨some (refreshSignedAccessToken u.id now), some u, none⟩
                  db := db }

/-! ## API client (`js/api.js`)

`ApiClient.request` and `ApiClient.renewToken`.  Each run of `request` is
determined by the three possible server answers: the first response to the
call, the response to the (at most one) `/auth/refresh` round trip, and the
response to the (at most one) retried call.  `RequestOutcome` also records
how often each round trip actually happened and which bearer token the retry
carried. -/

structure ClientState where
  accessToken : Option String
  refreshToken : Option String
deriving DecidableEq

/-- A response as the client sees it;  `dataAccessToken`/`dataRefreshToken`
are the fields `data.data.accessToken` / `data.data.refreshToken` that
`renewToken` reads from the refresh response body. -/
structure HttpResp where
  status : Nat
  ok : Bool
  dataAccessToken : Option String
  dataRefreshToken : Option String
deriving DecidableEq

def setTokens (a r : Option String) : ClientState :=
  { accessToken := a, refreshToken := r }

def clearTokens : ClientState :=
  { accessToken := none, refreshToken := none }

/-- `renewToken()`: on `response.ok` stores whatever the body carries and
reports success; otherwise clears both tokens and reports failure. -/
def renewToken (_st : ClientState) (refreshResp : HttpResp) : Bool × ClientState :=
  if refreshResp.ok then
    (true, setTokens refreshResp.dataAccessToken refreshResp.dataRefreshToken)
  else (false, clearTokens)

structure RequestOutcome where
  response : HttpResp
  state : ClientState
  renewCalls : Nat
  callFetches : Nat
  retryAuth : Option String
deriving DecidableEq

/-- `request(endpoint, options)`: fetch once; if the answer is a 401 and a
(truthy) refresh token is stored, run `renewToken` once; on renewal success
re-fetch exactly once with the renewed access token and return that second
response, on failure return the original 401. -/
def clientRequest (st : ClientState) (firstResp refreshResp retryResp : HttpResp) :
    RequestOutcome :=
  if firstResp.status == 401 && truthyOptString st.refreshToken then
    match renewToken st refreshResp with
    | (true, st2) =>
      { response := retryResp, state := st2, renewCalls := 1, callFetches := 2
        retryAuth := st2.accessToken }
    | (false, st2) =>
      { response := firstResp, state := st2, renewCalls := 1, callFetches := 1
        retryAuth := none }
  else
    { response := firstResp, state := st, renewCalls := 0, callFetches := 1
      retryAuth := none }

/-! ## Project routes (`backend/routes/projects.js`) -/

structure Project where
  id : Nat
  title : String
  description : String
  videoUrl : Option String
  videoTitle : Option String
  repositoryUrl : Option String
  technologies : List String
  isFeatured : Bool
  isActive : Bool
  order : Nat
  authorId : Nat
  createdAt : Nat
  updatedAt : Nat
deriving DecidableEq

/-- The `where` object of `GET /api/projects`: always `isActive: true`, plus
`isFeatured` when `?featured=true`, plus the three-field `OR` search filter
(`title`/`description` insensitive-contains, `technologies hasSome`). -/
def publicProjectsWhere (search : String) (featured : Bool) (p : Project) : Bool :=
  p.isActive &&
  (!featured || p.isFeatured) &&
  (!(truthyString search) ||
    (containsInsensitive p.title search || containsInsensitive p.description search ||
      p.technologies.contains search))

/-- `orderBy: [{isFeatured: desc}, {order: asc}, {createdAt: desc}]`. -/
def projectOrder (a b : Project) : Bool :=
  if a.isFeatured == b.isFeatured then
    if a.order == b.order then decide (b.createdAt ≤ a.createdAt)
    else decide (a.order ≤ b.order)
  else a.isFeatured

/-- `orderBy: [{order: asc}, {createdAt: desc}]` of the featured listing. -/
def featuredOrder (a b : Project) : Bool :=
  if a.order == b.order then decide (b.createdAt ≤ a.createdAt)
  else decide (a.order ≤ b.order)

/-- One page of `GET /api/projects`: filter, sort, `skip = (page-1)*limit`,
`take = limit`. -/
def getProjectsPage (db : List Project) (page limit : Nat) (search : String)
    (featured : Bool) : List Project :=
  ((sortBy projectOrder (db.filter (publicProjectsWhere search featured))).drop
    ((page - 1) * limit)).take limit

/-- `GET /api/projects/featured`: `isActive && isFeatured`, ordered, unpaged. -/
def getFeaturedProjects (db : List Project) : List Project :=
  sortBy featuredOrder (db.filter fun p => p.isActive && p.isFeatured)

/-- The `where` object of `GET /api/projects/admin/all`: only the search
filter — no `isActive` condition. -/
def adminAllWhere (search : String) (p : Project) : Bool :=
  !(truthyString search) ||
    (containsInsensitive p.title search || containsInsensitive p.description search)

/-- The result set `GET /api/projects/admin/all` paginates over. -/
def adminAllSet (db : List Project) (search : String) : List Project :=
  db.filter (adminAllWhere search)

/-- One page of `GET /api/projects/admin/all`. -/
def adminAllPage (db : List Project) (page limit : Nat) (search : String) : List Project :=
  ((sortBy projectOrder (adminAllSet db search)).drop ((page - 1) * limit)).take limit

/-- `DELETE /api/projects/:id`: 404 when the id is absent, otherwise an
`update` setting `isActive: false` (soft delete) — never a row removal. -/
def deleteProjectEndpoint (db : List Project) (id now : Nat) : Nat × List Project :=
  match db.find? (fun p => p.id == id) with
  | none => (404, db)
  | some _ =>
    (200, db.map fun p =>
      if p.id == id then { p with isActive := false, updatedAt := now } else p)

/-! ## Contact routes (`backend/routes/contacts.js`) and validators
(`backend/middleware/validators.js`) -/

structure ContactBody where
  name : String
  email : String
  subject : Option String
  message : String
  phone : Option String
deriving DecidableEq

/-- `validateContact` as the list of failing field names reported by
`handleValidationErrors` (each validator contributes its field when its check
fails; `subject` is `optional`). -/
def validateContact (b : ContactBody) : List String :=
  (if 2 ≤ (jsTrim b.name).length ∧ (jsTrim b.name).length ≤ 100 then [] else ["name"]) ++
  (if isEmailModel b.email then [] else ["email"]) ++
  (match b.subject with
   | some s => if (jsTrim s).length ≤ 200 then [] else ["subject"]
   | none => []) ++
  (if 10 ≤ (jsTrim b.message).length ∧ (jsTrim b.message).length ≤ 2000 then []
   else ["message"])

structure ContactRec where
  id : Nat
  name : String
  email : String
  subject : Option String
  message : String
  phone : Option String
  status : String
  adminNotes : Option String
  respondedAt : Option Nat
  createdAt : Nat
  updatedAt : Nat
deriving DecidableEq

/-- `POST /api/contacts`: on validation failure a 400 carrying the failing
fields; otherwise a 201 and a row created with `status: 'PENDING'` from the
sanitized (trimmed) body. -/
def postContactsEndpoint (b : ContactBody) (now id : Nat) :
    Nat × List String × Option ContactRec :=
  if (validateContact b).isEmpty then
    (201, [],
      some { id := id, name := jsTrim b.name, email := b.email
             subject := b.subject.map jsTrim, message := jsTrim b.message
             phone := b.phone, status := "PENDING", adminNotes := none
             respondedAt := none, createdAt := now, updatedAt := now })
  else (400, validateContact b, none)

/-- The `status` check of `validateUpdateContact`:
`optional().isIn(['PENDING', 'IN_PROGRESS', 'RESOLVED', 'CLOSED'])`. -/
def validUpdateContactStatus : Option String → Bool
  | none => true
  | some s => ["PENDING", "IN_PROGRESS", "RESOLVED", "CLOSED"].contains s

/-- The update applied by `PUT /api/contacts/:id` to the found row:
`updatedAt` always; `status` (and, when it equals `'RESPONDED'`,
`respondedAt`) only when `status` is truthy; `adminNotes` whenever the field
is present (`!== undefined`). -/
def putContactUpdate (c : ContactRec) (status : Option String)
    (adminNotesGiven : Bool) (adminNotes : Option String) (now : Nat) : ContactRec :=
  let base := { c with updatedAt := now }
  let withStatus :=
    match status with
    | some s =>
      if truthyString s then
        let c1 := { base with status := s }
        if s == "RESPONDED" then { c1 with respondedAt := some now } else c1
      else base
    | none => base
  if adminNotesGiven then { withStatus with adminNotes := adminNotes } else withStatus

/-- Statuses admitted by `PATCH /api/contacts/:id/status` and by
`POST /api/contacts/bulk-update`. -/
def patchStatusAllowed : List String := ["PENDING", "IN_PROGRESS", "RESPONDED", "ARCHIVED"]

/-- `PATCH /api/contacts/:id/status`: reject a missing/unknown status with
400, a missing row with 404; otherwise write the status and stamp
`respondedAt` on a transition into `'RESPONDED'`. -/
def patchContactStatus (db : List ContactRec) (id : Nat) (status : Option String)
    (now : Nat) : Nat × List ContactRec :=
  match status with
  | none => (400, db)
  | some s =>
    if !(truthyString s) || !(patchStatusAllowed.contains s) then (400, db)
    else
      match db.find? (fun c => c.id == id) with
      | none => (404, db)
      | some _ =>
        (200, db.map fun c =>
          if c.id == id then
            let base := { c with status := s, updatedAt := now }
            if s == "RESPONDED" && !(c.status == "RESPONDED") then
              { base with respondedAt := some now }
            else base
          else c)

/-- `POST /api/contacts/bulk-update`: same status whitelist; `updateMany`
applies one update object — which includes `respondedAt` whenever the status
is `'RESPONDED'`, and `adminNotes` when truthy — to every listed id, and
reports the number of matched rows. -/
def bulkUpdateContacts (db : List ContactRec) (contactIds : List Nat)
    (status : Option String) (adminNotes : Option String) (now : Nat) :
    Nat × List ContactRec × Nat :=
  if contactIds.isEmpty then (400, db, 0)
  else
    match status with
    | none => (400, db, 0)
    | some s =>
      if !(truthyString s) || !(patchStatusAllowed.contains s) then (400, db, 0)
      else
        (200,
         db.map fun c =>
           if contactIds.contains c.id then
             let base := { c with status := s, updatedAt := now }
             let base2 := if s == "RESPONDED" then { base with respondedAt := some now } else base
             match adminNotes with
             | some notes => if truthyString notes then { base2 with adminNotes := some notes } else base2
             | none => base2
           else c,
         (db.filter fun c => contactIds.contains c.id).length)

/-! ## Iterated issuance through `saveRefreshToken`

`issueAll` runs one `saveRefreshToken` per issuance (token string, expiry,
instant), the scenario behind the per-account cap.  `expectedRecords`
describes the store this produces: the five most recent issuances, newest
first, with ids equal to the issuance positions. -/

structure Issuance where
  token : String
  expiresAt : Nat
  time : Nat
deriving DecidableEq

def issueAll (userId : Nat) (iss : List Issuance) (db : TokenDB) : TokenDB :=
  iss.foldl (fun d i => saveRefreshToken d userId i.token i.expiresAt i.time) db

def withIdx : Nat → List Issuance → List (Nat × Issuance)
  | _, [] => []
  | n, x :: xs => (n, x) :: withIdx (n + 1) xs

def issuanceRec (userId : Nat) (p : Nat × Issuance) : RefreshTokenRec :=
  { id := p.1, token := p.2.token, userId := userId
    expiresAt := p.2.expiresAt, createdAt := p.2.time }

def expectedRecords (userId : Nat) (iss : List Issuance) : List RefreshTokenRec :=
  ((withIdx 0 iss).reverse.take 5).map (issuanceRec userId)

theorem withIdx_append_single (n : Nat) (l : List Issuance) (x : Issuance) :
    withIdx n (l ++ [x]) = withIdx n l ++ [(n + l.length, x)] := by
  induction l generalizing n with
  | nil => simp [withIdx]
  | cons a l ih =>
    have h1 : (a :: l) ++ [x] = a :: (l ++ [x]) := rfl
    rw [h1, withIdx, withIdx, ih, List.length_cons, List.cons_append]
    have h2 : n + 1 + l.length = n + (l.length + 1) := by omega
    rw [h2]

theorem snd_mem_withIdx {p : Nat × Issuance} {n : Nat} {l : List Issuance}
    (h : p ∈ withIdx n l) : p.2 ∈ l := by
  induction l generalizing n with
  | nil => simp [withIdx] at h
  | cons a l ih =>
    simp only [withIdx, List.mem_cons] at h
    rcases h with h | h
    · subst h; exact List.mem_cons_self a l
    · exact List.mem_cons_of_mem a (ih h)

theorem fst_ge_of_mem_withIdx {p : Nat × Issuance} {n : Nat} {l : List Issuance}
    (h : p ∈ withIdx n l) : n ≤ p.1 := by
  induction l generalizing n with
  | nil => simp [withIdx] at h
  | cons a l ih =>
    simp only [withIdx, List.mem_cons] at h
    rcases h with h | h
    · subst h; exact Nat.le_refl n
    · exact Nat.le_of_succ_le (ih h)

theorem pairwise_fst_withIdx (n : Nat) (l : List Issuance) :
    (withIdx n l).Pairwise (fun p q => p.1 < q.1) := by
  induction l generalizing n with
  | nil => exact List.Pairwise.nil
  | cons a l ih =>
    refine List.Pairwise.cons (fun q hq => ?_) (ih (n + 1))
    exact Nat.lt_of_lt_of_le (Nat.lt_succ_self n) (fst_ge_of_mem_withIdx hq)

theorem pairwise_snd_withIdx {R : Issuance → Issuance → Prop} {l : List Issuance}
    (n : Nat) (h : l.Pairwise R) : (withIdx n l).Pairwise (fun p q => R p.2 q.2) := by
  induction l generalizing n with
  | nil => exact List.Pairwise.nil
  | cons a l ih =>
    rw [List.pairwise_cons] at h
    refine List.Pairwise.cons (fun q hq => ?_) (ih (n + 1) h.2)
    exact h.1 q.2 (snd_mem_withIdx hq)

theorem map_snd_withIdx (n : Nat) (l : List Issuance) :
    (withIdx n l).map Prod.snd = l := by
  induction l generalizing n with
  | nil => rfl
  | cons a l ih => simp [withIdx, ih]

theorem length_withIdx (n : Nat) (l : List Issuance) :
    (withIdx n l).length = l.length := by
  induction l generalizing n with
  | nil => rfl
  | cons a l ih => simp [withIdx, ih]

theorem length_expectedRecords (u : Nat) (iss : List Issuance) :
    (expectedRecords u iss).length = min 5 iss.length := by
  simp [expectedRecords, length_withIdx]

theorem mem_expectedRecords {u : Nat} {r : RefreshTokenRec} {iss : List Issuance}
    (h : r ∈ expectedRecords u iss) :
    r.userId = u ∧ ∃ q ∈ iss, r.expiresAt = q.expiresAt ∧ r.createdAt = q.time := by
  unfold expectedRecords at h
  obtain ⟨p, hp, rfl⟩ := List.mem_map.mp h
  have hp2 : p ∈ withIdx 0 iss :=
    List.mem_reverse.mp (List.mem_of_mem_take hp)
  exact ⟨rfl, p.2, snd_mem_withIdx hp2, rfl, rfl⟩

theorem expected_sorted {u : Nat} {iss : List Issuance}
    (h : iss.Pairwise (fun a b => a.time < b.time)) :
    (expectedRecords u iss).Pairwise (fun a b => newerFirst a b = true) := by
  unfold expectedRecords
  rw [List.pairwise_map]
  have h2 : ((withIdx 0 iss).reverse).Pairwise (fun p q => q.2.time < p.2.time) :=
    List.pairwise_reverse.mpr (pairwise_snd_withIdx 0 h)
  have h3 := List.Pairwise.sublist (List.take_sublist 5 ((withIdx 0 iss).reverse)) h2
  exact h3.imp fun hlt => decide_eq_true (Nat.le_of_lt hlt)

theorem expected_ids_ne (u : Nat) (iss : List Issuance) :
    (expectedRecords u iss).Pairwise (fun a b => a.id ≠ b.id) := by
  unfold expectedRecords
  rw [List.pairwise_map]
  have h2 : ((withIdx 0 iss).reverse).Pairwise (fun p q => q.1 < p.1) :=
    List.pairwise_reverse.mpr (pairwise_fst_withIdx 0 iss)
  have h3 := List.Pairwise.sublist (List.take_sublist 5 ((withIdx 0 iss).reverse)) h2
  exact h3.imp fun hlt => Nat.ne_of_gt hlt

theorem filter_drop_ids (l : List RefreshTokenRec) (n : Nat)
    (h : l.Pairwise (fun a b => a.id ≠ b.id)) :
    (l.filter fun r => !(((l.drop n).map (fun t => t.id)).contains r.id)) = l.take n := by
  induction l generalizing n with
  | nil => simp
  | cons r l ih =>
    rw [List.pairwise_cons] at h
    cases n with
    | zero =>
      rw [List.drop_zero, List.take_zero]
      rw [List.filter_eq_nil_iff]
      intro x hx
      have hm : x.id ∈ ((r :: l).map (fun t => t.id)) := List.mem_map_of_mem _ hx
      have hc : (((r :: l).map (fun t => t.id)).contains x.id) = true := List.elem_iff.mpr hm
      rw [hc]
      simp
    | succ m =>
      have hdrop : (r :: l).drop (m + 1) = l.drop m := rfl
      rw [hdrop]
      have hr : (!(((l.drop m).map (fun t => t.id)).contains r.id)) = true := by
        have hnot : r.id ∉ (l.drop m).map (fun t => t.id) := by
          intro hmem
          obtain ⟨b, hb, hbid⟩ := List.mem_map.mp hmem
          exact h.1 b (List.mem_of_mem_drop hb) hbid.symm
        simp only [Bool.not_eq_true']
        exact Bool.eq_false_iff.mpr (fun hc => hnot (List.elem_iff.mp hc))
      have hstep :
          List.filter (fun x => !(((l.drop m).map (fun t => t.id)).contains x.id)) (r :: l)
            = r :: List.filter (fun x => !(((l.drop m).map (fun t => t.id)).contains x.id)) l := by
        rw [List.filter_cons, if_pos hr]
      rw [hstep, ih m h.2, List.take_succ_cons]

theorem expected_append_single (u : Nat) (done : List Issuance) (x : Issuance) :
    expectedRecords u (done ++ [x])
      = issuanceRec u (done.length, x)
          :: ((withIdx 0 done).reverse.take 4).map (issuanceRec u) := by
  unfold expectedRecords
  rw [withIdx_append_single, List.reverse_append, Nat.zero_add]
  rfl

theorem saveRefreshToken_step (u : Nat) (done : List Issuance) (x : Issuance)
    (hsorted : done.Pairwise (fun a b => a.time < b.time))
    (hexp : ∀ p ∈ done, x.time < p.expiresAt) :
    saveRefreshToken ⟨expectedRecords u done, done.length⟩ u x.token x.expiresAt x.time
      = ⟨expectedRecords u (done ++ [x]), done.length + 1⟩ := by
  have hpurge : purgeExpired (expectedRecords u done) u x.time = expectedRecords u done := by
    unfold purgeExpired
    rw [List.filter_eq_self]
    intro r hr
    obtain ⟨hu, q, hq, he, _⟩ := mem_expectedRecords hr
    have hlt : ¬(r.expiresAt < x.time) := by
      have := hexp q hq
      omega
    simp [hlt]
  have hfilterU : (expectedRecords u done).filter (fun r => r.userId == u)
      = expectedRecords u done := by
    rw [List.filter_eq_self]
    intro r hr
    exact beq_iff_eq.mpr (mem_expectedRecords hr).1
  have hdesc : userTokensDesc (expectedRecords u done) u = expectedRecords u done := by
    unfold userTokensDesc
    rw [hfilterU, sortBy_of_pairwise _ _ (expected_sorted hsorted)]
  have hlen : (expectedRecords u done).length = min 5 done.length :=
    length_expectedRecords u done
  unfold saveRefreshToken
  rw [hpurge]
  unfold enforceCap
  rw [hdesc, hlen]
  rw [expected_append_single]
  by_cases hc : 5 ≤ done.length
  · have h5 : min 5 done.length = 5 := by omega
    rw [h5, if_pos (Nat.le_refl 5)]
    rw [filter_drop_ids _ 4 (expected_ids_ne u done)]
    have htake : (expectedRecords u done).take 4
        = ((withIdx 0 done).reverse.take 4).map (issuanceRec u) := by
      unfold expectedRecords
      rw [← List.map_take, List.take_take]
      rfl
    rw [htake]
    rfl
  · have hcond : ¬(5 ≤ min 5 done.length) := by omega
    rw [if_neg hcond]
    have hlenrev : ((withIdx 0 done).reverse).length ≤ 4 := by
      rw [List.length_reverse, length_withIdx]
      omega
    have h4 : (withIdx 0 done).reverse.take 4 = (withIdx 0 done).reverse :=
      List.take_of_length_le hlenrev
    have h5 : (withIdx 0 done).reverse.take 5 = (withIdx 0 done).reverse :=
      List.take_of_length_le (Nat.le_trans hlenrev (by omega))
    unfold expectedRecords
    rw [h4, h5]
    rfl

theorem issueAll_from (u : Nat) (done rest : List Issuance)
    (hp : (done ++ rest).Pairwise (fun a b => a.time < b.time))
    (he : ∀ p ∈ done ++ rest, ∀ q ∈ done ++ rest, p.time < q.expiresAt) :
    issueAll u rest ⟨expectedRecords u done, done.length⟩
      = ⟨expectedRecords u (done ++ rest), (done ++ rest).length⟩ := by
  induction rest generalizing done with
  | nil => simp [issueAll]
  | cons x rest ih =>
    have hstep := saveRefreshToken_step u done x
      (hp.sublist (List.sublist_append_left done (x :: rest)))
      (fun p hpp => he x (by simp) p (List.mem_append_left _ hpp))
    have hassoc : (done ++ [x]) ++ rest = done ++ x :: rest := by simp
    have hrec := ih (done ++ [x]) (by rw [hassoc]; exact hp)
      (by rw [hassoc]; exact he)
    unfold issueAll at hrec ⊢
    simp only [List.foldl_cons]
    rw [hstep]
    have hlen1 : (⟨expectedRecords u (done ++ [x]), done.length + 1⟩ : TokenDB)
        = ⟨expectedRecords u (done ++ [x]), (done ++ [x]).length⟩ := by simp
    rw [hlen1, hrec, hassoc]

/-! ## Auxiliary facts about `jwtVerify` -/

theorem jwtVerify_ok_payload {α : Type} {t : Jwt α} {s : String} {i a : Option String}
    {n : Nat} {c : α} (h : jwtVerify t s i a n = .ok c) : c = t.payload := by
  unfold jwtVerify at h
  split_ifs at h <;> simp_all

theorem jwtVerify_eq_ok_iff {α : Type} (t : Jwt α) (secret issv audv : String) (now : Nat) :
    jwtVerify t secret (some issv) (some audv) now = .ok t.payload ↔
      t.secret = secret ∧ now < t.exp ∧ t.aud = some audv ∧ t.iss = some issv := by
  unfold jwtVerify claimOk
  split_ifs with h1 h2 h3 <;>
    simp_all [Bool.and_eq_true, Nat.not_le, Nat.not_lt] <;> omega

theorem jwtVerify_eq_expired_iff {α : Type} (t : Jwt α) (secret issv audv : String) (now : Nat) :
    jwtVerify t secret (some issv) (some audv) now = .error .tokenExpired ↔
      t.secret = secret ∧ t.exp ≤ now := by
  unfold jwtVerify claimOk
  split_ifs with h1 h2 h3 <;> simp_all [Nat.not_le]

theorem jwtVerify_eq_invalid_iff {α : Type} (t : Jwt α) (secret issv audv : String) (now : Nat) :
    jwtVerify t secret (some issv) (some audv) now = .error .jsonWebTokenError ↔
      t.secret ≠ secret ∨ (now < t.exp ∧ ¬(t.aud = some audv ∧ t.iss = some issv)) := by
  unfold jwtVerify claimOk
  split_ifs with h1 h2 h3 <;> simp_all [Bool.and_eq_true, Nat.not_le, Nat.not_lt] <;> omega

/-! ## Claim theorems -/

/-- Claim C6: `cleanExpiredTokens` (`sweepExpired`) deletes exactly the
records whose `expiresAt` is before the current time — every such record and
no other — returns the number deleted, and running it again immediately
afterwards deletes nothing, returns 0 and leaves the store unchanged. -/
theorem cleanExpiredTokens_exact_and_idempotent (db : TokenDB) (now : Nat) :
    (∀ r, r ∈ (cleanExpiredTokens db now).1.records ↔
        r ∈ db.records ∧ ¬(r.expiresAt < now)) ∧
    db.records.length
      = (cleanExpiredTokens db now).1.records.length + (cleanExpiredTokens db now).2 ∧
    cleanExpiredTokens (cleanExpiredTokens db now).1 now
      = ((cleanExpiredTokens db now).1, 0) := by
  refine ⟨fun r => ?_, ?_, ?_⟩
  · simp [cleanExpiredTokens, List.mem_filter]
  · unfold cleanExpiredTokens
    simp only
    induction db.records with
    | nil => rfl
    | cons a l ih =>
      by_cases hlt : a.expiresAt < now <;>
        simp [List.filter_cons, hlt, ih] <;> omega
  · unfold cleanExpiredTokens
    simp only [Prod.mk.injEq]
    constructor
    · have h1 : ∀ r ∈ db.records.filter (fun r => !(decide (r.expiresAt < now))),
          (!(decide (r.expiresAt < now))) = true := fun r hr => (List.mem_filter.mp hr).2
      rw [List.filter_eq_self.mpr h1]
    · rw [List.length_eq_zero, List.filter_eq_nil_iff]
      intro r hr
      have := (List.mem_filter.mp hr).2
      simp_all

/-- Claim C5: on a 401 with a (truthy) stored refresh token the client runs
exactly one renewal round trip; on renewal success it re-fetches the original
call exactly once carrying the renewed access token and returns that second
response; on renewal failure it clears both stored tokens and returns the
original 401; when no truthy refresh token is stored nothing is renewed or
retried; in every execution there is at most one renewal and at most one
retry. -/
theorem clientRequest_single_renewal (st : ClientState)
    (firstResp refreshResp retryResp : HttpResp) :
    (clientRequest st firstResp refreshResp retryResp).renewCalls ≤ 1 ∧
    (clientRequest st firstResp refreshResp retryResp).callFetches ≤ 2 ∧
    (firstResp.status = 401 → truthyOptString st.refreshToken = true →
      refreshResp.ok = true →
      clientRequest st firstResp refreshResp retryResp
        = { response := retryResp
            state := setTokens refreshResp.dataAccessToken refreshResp.dataRefreshToken
            renewCalls := 1, callFetches := 2
            retryAuth := refreshResp.dataAccessToken }) ∧
    (firstResp.status = 401 → truthyOptString st.refreshToken = true →
      refreshResp.ok = false →
      clientRequest st firstResp refreshResp retryResp
        = { response := firstResp, state := clearTokens
            renewCalls := 1, callFetches := 1, retryAuth := none }) ∧
    (truthyOptString st.refreshToken = false →
      clientRequest st firstResp refreshResp retryResp
        = { response := firstResp, state := st, renewCalls := 0, callFetches := 1
            retryAuth := none }) := by
  unfold clientRequest renewToken
  refine ⟨?_, ?_, ?_, ?_, ?_⟩
  · split <;> simp_all <;> split <;> simp_all
  · split <;> simp_all <;> split <;> simp_all
  · intro h1 h2 h3
    rw [if_pos (by simp [h1, h2]), if_pos (by simp [h3])]
    rfl
  · intro h1 h2 h3
    rw [if_pos (by simp [h1, h2]), if_neg (by simp [h3])]
  · intro h1
    rw [if_neg (by simp [h1])]

/-- Claim C5 witness: a concrete 401 followed by a successful renewal is
retried once with the renewed token; a concrete 401 with a failed renewal
clears the tokens and surfaces the original response. -/
theorem clientRequest_single_renewal_witness :
    clientRequest ⟨some "oldA", some "oldR"⟩ ⟨401, false, none, none⟩
        ⟨200, true, some "newA", none⟩ ⟨200, true, none, none⟩
      = { response := ⟨200, true, none, none⟩
          state := ⟨some "newA", none⟩
          renewCalls := 1, callFetches := 2, retryAuth := some "newA" } ∧
    clientRequest ⟨some "oldA", some "oldR"⟩ ⟨401, false, none, none⟩
        ⟨401, false, none, none⟩ ⟨200, true, none, none⟩
      = { response := ⟨401, false, none, none⟩
          state := ⟨none, none⟩
          renewCalls := 1, callFetches := 1, retryAuth := none } := by
  constructor
  · exact (clientRequest_single_renewal ⟨some "oldA", some "oldR"⟩ ⟨401, false, none, none⟩
      ⟨200, true, some "newA", none⟩ ⟨200, true, none, none⟩).2.2.1 rfl (by decide) rfl
  · exact (clientRequest_single_renewal ⟨some "oldA", some "oldR"⟩ ⟨401, false, none, none⟩
      ⟨401, false, none, none⟩ ⟨200, true, none, none⟩).2.2.2.1 rfl (by decide) rfl

/-- Claim C2: when every stored record carrying the presented refresh-token
string has expired — in particular when the record was deleted by a
revocation, so no record carries it at all — `findRefreshToken` answers
`null` and `POST /api/auth/refresh` answers 401, whatever
`jwt.verify` made of the token string itself. -/
theorem revoked_or_expired_token_rejected (db : TokenDB) (users : List UserRec)
    (t : String) (vr : Except JwtError Nat) (now : Nat)
    (h : ∀ r ∈ db.records, r.token = t → r.expiresAt < now) :
    findRefreshToken db users t now = none ∧
    (refreshEndpoint db users (some t) vr now).status = 401 := by
  constructor
  · unfold findRefreshToken
    have hnil : (db.records.filter fun r => r.token == t && decide (now < r.expiresAt)) = [] := by
      rw [List.filter_eq_nil_iff]
      intro r hr hcontra
      rw [Bool.and_eq_true] at hcontra
      have h1 : r.token = t := beq_iff_eq.mp hcontra.1
      have h2 : now < r.expiresAt := of_decide_eq_true hcontra.2
      have := h r hr h1
      omega
    rw [hnil]
    rfl
  · unfold refreshEndpoint
    dsimp only
    cases ht : truthyString t with
    | false => rfl
    | true =>
      cases vr with
      | error e => rfl
      | ok uid =>
        cases hfind : db.records.find? (fun r => r.token == t) with
        | none => rfl
        | some stored =>
          have h0 := @List.find?_some RefreshTokenRec (fun r => r.token == t)
            stored db.records hfind
          have h1 : stored.token = t := beq_iff_eq.mp h0
          have h2 : stored.expiresAt < now := h stored (List.mem_of_find?_eq_some hfind) h1
          simp [h2]

/-- Claim C2 witness: a store holding only an expired record for the
presented token (expiry 5, current instant 10) yields `none` and a 401. -/
theorem revoked_or_expired_token_rejected_witness :
    findRefreshToken ⟨[⟨0, "tokA", 1, 5, 1⟩], 1⟩ [] "tokA" 10 = none ∧
    (refreshEndpoint ⟨[⟨0, "tokA", 1, 5, 1⟩], 1⟩ [] (some "tokA") (.ok 1) 10).status = 401 :=
  revoked_or_expired_token_rejected ⟨[⟨0, "tokA", 1, 5, 1⟩], 1⟩ [] "tokA" (.ok 1) 10
    (by decide)

/-- Claim C3 (amended): before the expiry instant,
`verifyAccessToken (generateAccessToken A)` returns the claims carrying `A`'s
id, email and role (and name); from the expiry instant on it fails — but with
the single generic `'Token de acceso inválido o expirado'` error the
`try/catch` produces, not with a distinct `ExpiredToken` failure. -/
theorem access_token_roundtrip (u : UserRec) (issuedAt t : Nat) :
    (t < issuedAt + accessTokenLifetime →
      verifyAccessToken (generateAccessToken u issuedAt) t
        = .ok { userId := u.id, email := u.email, role := u.role, name := u.name }) ∧
    (issuedAt + accessTokenLifetime ≤ t →
      verifyAccessToken (generateAccessToken u issuedAt) t
        = .error "Token de acceso inválido o expirado") := by
  constructor
  · intro h
    have hok : jwtVerify (generateAccessToken u issuedAt) envJwtSecret
        (some tokenIssuer) (some tokenAudience) t
          = .ok (generateAccessToken u issuedAt).payload := by
      rw [jwtVerify_eq_ok_iff]
      exact ⟨rfl, h, rfl, rfl⟩
    unfold verifyAccessToken
    rw [hok]
    rfl
  · intro h
    have hexp : jwtVerify (generateAccessToken u issuedAt) envJwtSecret
        (some tokenIssuer) (some tokenAudience) t = .error .tokenExpired := by
      rw [jwtVerify_eq_expired_iff]
      exact ⟨rfl, h⟩
    unfold verifyAccessToken
    rw [hexp]

/-- Claim C3 witness: for a concrete account, verification 10 ms after
issuance returns the account's claims, and verification exactly at the expiry
instant fails with the generic error. -/
theorem access_token_roundtrip_witness :
    verifyAccessToken (generateAccessToken ⟨7, "Ana", "ana@x.com", "USER", true⟩ 0) 10
      = .ok { userId := 7, email := "ana@x.com", role := "USER", name := "Ana" } ∧
    verifyAccessToken (generateAccessToken ⟨7, "Ana", "ana@x.com", "USER", true⟩ 0)
        accessTokenLifetime
      = .error "Token de acceso inválido o expirado" :=
  ⟨(access_token_roundtrip ⟨7, "Ana", "ana@x.com", "USER", true⟩ 0 10).1 (by decide),
   (access_token_roundtrip ⟨7, "Ana", "ana@x.com", "USER", true⟩ 0 accessTokenLifetime).2
     (Nat.le_refl _)⟩

/-- Claim C3 counterexample: after expiry, verification of the token issued
for a concrete account does not fail with a distinct `ExpiredToken` outcome —
it returns exactly the same generic error value that a token forged with the
wrong secret produces, so the claimed `ExpiredToken` failure does not exist
at this interface. -/
theorem access_token_expiry_not_distinct :
    verifyAccessToken (generateAccessToken ⟨7, "Ana", "ana@x.com", "USER", true⟩ 0)
        accessTokenLifetime
      = .error "Token de acceso inválido o expirado" ∧
    verifyAccessToken
        ⟨⟨99, "mallory@x.com", "ADMIN", "Mallory"⟩, "wrong-secret",
          some tokenIssuer, some tokenAudience, 999999999⟩ 0
      = .error "Token de acceso inválido o expirado" ∧
    verifyAccessToken (generateAccessToken ⟨7, "Ana", "ana@x.com", "USER", true⟩ 0)
        accessTokenLifetime
      = verifyAccessToken
          ⟨⟨99, "mallory@x.com", "ADMIN", "Mallory"⟩, "wrong-secret",
            some tokenIssuer, some tokenAudience, 999999999⟩ 0 := by
  refine ⟨?_, ?_, ?_⟩ <;> rfl

/-- Claim C4 (amended): `jwt.verify` — as invoked by `verifyAccessToken` and
`verifyRefreshToken` with a secret and issuer/audience expectations — does
perform the signature, issuer/audience and expiry checks, and at that level
the failure kinds are distinct (`TokenExpiredError` exactly when the
signature matches but the expiry has elapsed, `JsonWebTokenError` exactly
when the signature or a registered claim fails); but both service functions
catch every failure and collapse it into one fixed generic error, so the two
kinds are not distinguishable to their caller. -/
theorem verify_checks_collapsed (t : Jwt Claims) (rt : Jwt RefreshClaims) (now : Nat) :
    (jwtVerify t envJwtSecret (some tokenIssuer) (some tokenAudience) now
        = .ok t.payload ↔
      t.secret = envJwtSecret ∧ now < t.exp ∧
        t.aud = some tokenAudience ∧ t.iss = some tokenIssuer) ∧
    (jwtVerify t envJwtSecret (some tokenIssuer) (some tokenAudience) now
        = .error .tokenExpired ↔
      t.secret = envJwtSecret ∧ t.exp ≤ now) ∧
    (jwtVerify t envJwtSecret (some tokenIssuer) (some tokenAudience) now
        = .error .jsonWebTokenError ↔
      t.secret ≠ envJwtSecret ∨
        (now < t.exp ∧ ¬(t.aud = some tokenAudience ∧ t.iss = some tokenIssuer))) ∧
    (verifyAccessToken t now = .ok t.payload ∨
      verifyAccessToken t now = .error "Token de acceso inválido o expirado") ∧
    (verifyRefreshToken rt now = .ok rt.payload ∨
      verifyRefreshToken rt now = .error "Token de refresco inválido o expirado") := by
  refine ⟨jwtVerify_eq_ok_iff t envJwtSecret tokenIssuer tokenAudience now,
    jwtVerify_eq_expired_iff t envJwtSecret tokenIssuer tokenAudience now,
    jwtVerify_eq_invalid_iff t envJwtSecret tokenIssuer tokenAudience now, ?_, ?_⟩
  · unfold verifyAccessToken
    cases hv : jwtVerify t envJwtSecret (some tokenIssuer) (some tokenAudience) now with
    | ok c => exact Or.inl (by rw [jwtVerify_ok_payload hv])
    | error e => exact Or.inr rfl
  · unfold verifyRefreshToken
    cases hv : jwtVerify rt envJwtRefreshSecret (some tokenIssuer) (some tokenAudience) now with
    | ok c => exact Or.inl (by rw [jwtVerify_ok_payload hv])
    | error e => exact Or.inr rfl

/-- Claim C4 counterexample: an expired-but-genuine token and a
wrong-secret token make `verifyAccessToken` (and likewise
`verifyRefreshToken`) fail with the identical error value, so the claimed
distinct `InvalidToken` / `ExpiredToken` failure kinds are not
distinguishable to the caller. -/
theorem verify_failures_indistinguishable :
    verifyAccessToken (generateAccessToken ⟨3, "Eva", "eva@x.com", "ADMIN", true⟩ 0)
        accessTokenLifetime
      = verifyAccessToken
          ⟨⟨3, "eva@x.com", "ADMIN", "Eva"⟩, "not-the-secret",
            some tokenIssuer, some tokenAudience, 999999999⟩ 7 ∧
    verifyRefreshToken (generateRefreshToken ⟨3, "Eva", "eva@x.com", "ADMIN", true⟩ 0)
        refreshTokenLifetime
      = verifyRefreshToken
          ⟨⟨3, "eva@x.com", "refresh"⟩, "not-the-secret",
            some tokenIssuer, some tokenAudience, 999999999⟩ 7 := by
  constructor <;> rfl

/-- Claim C9: `POST /api/auth/refresh` never writes the refresh-token store
(so in particular the presented token stays stored), its response carries no
`refreshToken` member, a 200 additionally carries an access token and the
user, and a client reading `data.refreshToken` from such a response stores
nothing as its refresh token. -/
theorem refreshEndpoint_cases (db : TokenDB) (users : List UserRec)
    (body : Option String) (vr : Except JwtError Nat) (now : Nat) :
    refreshEndpoint db users body vr now
        = ⟨401, ⟨none, none, none⟩, db⟩ ∨
    ∃ usr : UserRec, refreshEndpoint db users body vr now
        = ⟨200, ⟨some (refreshSignedAccessToken usr.id now), some usr, none⟩, db⟩ := by
  unfold refreshEndpoint
  repeat' split
  all_goals first
    | exact Or.inl rfl
    | exact Or.inr ⟨_, rfl⟩

/-- Claim C9: `POST /api/auth/refresh` never writes the refresh-token store
(so in particular the presented token stays stored), its response carries no
`refreshToken` member, a 200 additionally carries an access token and the
user, and a client reading `data.refreshToken` from such a response stores
nothing as its refresh token. -/
theorem refresh_is_readonly (db : TokenDB) (users : List UserRec)
    (body : Option String) (vr : Except JwtError Nat) (now : Nat) (st : ClientState)
    (resp : HttpResp) :
    (refreshEndpoint db users body vr now).db = db ∧
    (refreshEndpoint db users body vr now).data.refreshToken = none ∧
    ((refreshEndpoint db users body vr now).status = 200 →
      ((refreshEndpoint db users body vr now).data.accessToken.isSome
        ∧ (refreshEndpoint db users body vr now).data.user.isSome)) ∧
    (resp.dataRefreshToken = none → (renewToken st resp).2.refreshToken = none) := by
  have hclient : resp.dataRefreshToken = none →
      (renewToken st resp).2.refreshToken = none := by
    intro hr
    unfold renewToken
    cases hok : resp.ok
    · simp [clearTokens]
    · simp [setTokens, hr]
  rcases refreshEndpoint_cases db users body vr now with h | ⟨usr, h⟩
  · rw [h]
    exact ⟨rfl, rfl, by intro habs; simp at habs, hclient⟩
  · rw [h]
    exact ⟨rfl, rfl, fun _ => ⟨rfl, rfl⟩, hclient⟩

/-- Claim C9 witness: a concrete successful refresh (live stored token,
active user) answers 200 with an access token and the user, no
`refreshToken` member, and leaves the store untouched; the client's
`renewToken` on a body without a refresh token ends with no stored refresh
token. -/
theorem refresh_is_readonly_witness :
    (refreshEndpoint ⟨[⟨0, "tokB", 1, 99999, 1⟩], 1⟩ [⟨1, "Ana", "ana@x.com", "USER", true⟩]
        (some "tokB") (.ok 1) 50).db = ⟨[⟨0, "tokB", 1, 99999, 1⟩], 1⟩ ∧
    (refreshEndpoint ⟨[⟨0, "tokB", 1, 99999, 1⟩], 1⟩ [⟨1, "Ana", "ana@x.com", "USER", true⟩]
        (some "tokB") (.ok 1) 50).data.refreshToken = none ∧
    (refreshEndpoint ⟨[⟨0, "tokB", 1, 99999, 1⟩], 1⟩ [⟨1, "Ana", "ana@x.com", "USER", true⟩]
        (some "tokB") (.ok 1) 50).data.accessToken.isSome = true ∧
    (refreshEndpoint ⟨[⟨0, "tokB", 1, 99999, 1⟩], 1⟩ [⟨1, "Ana", "ana@x.com", "USER", true⟩]
        (some "tokB") (.ok 1) 50).data.user.isSome = true ∧
    (renewToken ⟨some "oldA", some "oldR"⟩ ⟨200, true, some "newA", none⟩).2.refreshToken
      = none := by
  have h := refresh_is_readonly ⟨[⟨0, "tokB", 1, 99999, 1⟩], 1⟩
    [⟨1, "Ana", "ana@x.com", "USER", true⟩] (some "tokB") (.ok 1) 50
    ⟨some "oldA", some "oldR"⟩ ⟨200, true, some "newA", none⟩
  have h200 := h.2.2.1 (by decide)
  exact ⟨h.1, h.2.1, h200.1, h200.2, h.2.2.2 rfl⟩

/-- Claim C7: a soft-deleted (`isActive = false`) project is in no page of
`GET /api/projects` (whatever page, limit, search and featured filter) and in
no result of `GET /api/projects/featured`, yet every stored project — active
or not — belongs to the (default search) result set
`GET /api/projects/admin/all` paginates over; and `DELETE /api/projects/:id`
on an existing id answers 200 and flips that project's `isActive` to `false`
while keeping the number of stored rows unchanged. -/
theorem soft_deleted_projects_hidden (db : List Project) (page limit : Nat)
    (search : String) (featured : Bool) (p : Project) (idv now : Nat) :
    (p.isActive = false → p ∉ getProjectsPage db page limit search featured) ∧
    (p.isActive = false → p ∉ getFeaturedProjects db) ∧
    (p ∈ db → p ∈ adminAllSet db "") ∧
    ((db.find? (fun q => q.id == idv)).isSome →
      (deleteProjectEndpoint db idv now).1 = 200 ∧
      (deleteProjectEndpoint db idv now).2.length = db.length ∧
      (∃ q ∈ (deleteProjectEndpoint db idv now).2, q.id = idv ∧ q.isActive = false) ∧
      (∀ q ∈ (deleteProjectEndpoint db idv now).2, q.id = idv → q.isActive = false)) := by
  refine ⟨?_, ?_, ?_, ?_⟩
  · intro hin hmem
    unfold getProjectsPage at hmem
    have h1 : p ∈ sortBy projectOrder (db.filter (publicProjectsWhere search featured)) :=
      List.mem_of_mem_drop (List.mem_of_mem_take hmem)
    have h2 : p ∈ db.filter (publicProjectsWhere search featured) :=
      (mem_sortBy _ _ _).mp h1
    have h3 : publicProjectsWhere search featured p = true := (List.mem_filter.mp h2).2
    unfold publicProjectsWhere at h3
    rw [Bool.and_eq_true, Bool.and_eq_true] at h3
    rw [hin] at h3
    exact absurd h3.1.1 (by decide)
  · intro hin hmem
    unfold getFeaturedProjects at hmem
    have h2 : p ∈ db.filter (fun q => q.isActive && q.isFeatured) :=
      (mem_sortBy _ _ _).mp hmem
    have h3 := (List.mem_filter.mp h2).2
    rw [Bool.and_eq_true, hin] at h3
    exact absurd h3.1 (by decide)
  · intro hin
    unfold adminAllSet
    rw [List.mem_filter]
    exact ⟨hin, rfl⟩
  · intro hsome
    unfold deleteProjectEndpoint
    cases hfind : db.find? (fun q => q.id == idv) with
    | none => rw [hfind] at hsome; exact absurd hsome (by decide)
    | some q0 =>
      have hq0mem : q0 ∈ db := List.mem_of_find?_eq_some hfind
      have hq0id : q0.id = idv := by
        have h0 := @List.find?_some Project (fun q => q.id == idv) q0 db hfind
        exact beq_iff_eq.mp h0
      refine ⟨rfl, by simp, ?_, ?_⟩
      · refine ⟨{ q0 with isActive := false, updatedAt := now }, ?_, hq0id, rfl⟩
        have : (if q0.id == idv then { q0 with isActive := false, updatedAt := now }
            else q0) = { q0 with isActive := false, updatedAt := now } := by
          rw [if_pos (beq_iff_eq.mpr hq0id)]
        rw [← this]
        exact List.mem_map_of_mem _ hq0mem
      · intro q hq hqid
        obtain ⟨q1, hq1mem, hq1eq⟩ := List.mem_map.mp hq
        by_cases hcond : q1.id == idv
        · rw [if_pos hcond] at hq1eq
          rw [← hq1eq]
        · rw [if_neg hcond] at hq1eq
          rw [← hq1eq] at hqid
          exact absurd (beq_iff_eq.mpr hqid) hcond

/-- Claim C7 witness: in a two-project store, the page and featured listings
contain nothing inactive, the inactive project is in the admin result set,
and deleting the active project keeps both rows and deactivates it. -/
theorem soft_deleted_projects_hidden_witness :
    ((⟨1, "T1", "D1", none, none, none, ["js"], true, false, 0, 1, 1, 1⟩ : Project)
        ∉ getProjectsPage
          [⟨1, "T1", "D1", none, none, none, ["js"], true, false, 0, 1, 1, 1⟩,
           ⟨2, "T2", "D2", none, none, none, ["js"], true, true, 0, 1, 2, 2⟩] 1 10 "" false) ∧
    ((⟨1, "T1", "D1", none, none, none, ["js"], true, false, 0, 1, 1, 1⟩ : Project)
        ∉ getFeaturedProjects
          [⟨1, "T1", "D1", none, none, none, ["js"], true, false, 0, 1, 1, 1⟩,
           ⟨2, "T2", "D2", none, none, none, ["js"], true, true, 0, 1, 2, 2⟩]) ∧
    ((⟨1, "T1", "D1", none, none, none, ["js"], true, false, 0, 1, 1, 1⟩ : Project)
        ∈ adminAllSet
          [⟨1, "T1", "D1", none, none, none, ["js"], true, false, 0, 1, 1, 1⟩,
           ⟨2, "T2", "D2", none, none, none, ["js"], true, true, 0, 1, 2, 2⟩] "") ∧
    (deleteProjectEndpoint
          [⟨1, "T1", "D1", none, none, none, ["js"], true, false, 0, 1, 1, 1⟩,
           ⟨2, "T2", "D2", none, none, none, ["js"], true, true, 0, 1, 2, 2⟩] 2 9).1 = 200 ∧
    (deleteProjectEndpoint
          [⟨1, "T1", "D1", none, none, none, ["js"], true, false, 0, 1, 1, 1⟩,
           ⟨2, "T2", "D2", none, none, none, ["js"], true, true, 0, 1, 2, 2⟩] 2 9).2.length
      = 2 ∧
    (∀ q ∈ (deleteProjectEndpoint
          [⟨1, "T1", "D1", none, none, none, ["js"], true, false, 0, 1, 1, 1⟩,
           ⟨2, "T2", "D2", none, none, none, ["js"], true, true, 0, 1, 2, 2⟩] 2 9).2,
        q.id = 2 → q.isActive = false) := by
  have h := soft_deleted_projects_hidden
    [⟨1, "T1", "D1", none, none, none, ["js"], true, false, 0, 1, 1, 1⟩,
     ⟨2, "T2", "D2", none, none, none, ["js"], true, true, 0, 1, 2, 2⟩] 1 10 "" false
    ⟨1, "T1", "D1", none, none, none, ["js"], true, false, 0, 1, 1, 1⟩ 2 9
  have hdel := h.2.2.2 (by decide)
  exact ⟨h.1 rfl, h.2.1 rfl, h.2.2.1 (by decide), hdel.1, by rw [hdel.2.1]; rfl,
    hdel.2.2.2⟩

/-- Claim C8: `POST /api/contacts` whose (trimmed) message is shorter than 10
characters is rejected with a 400 whose validation details include the
`message` field; with the other fields valid and the message length between
10 and 2000 it answers 201 and the created row's status is `PENDING`. -/
theorem contact_message_validation (b : ContactBody) (now id : Nat) :
    ((jsTrim b.message).length < 10 →
      (postContactsEndpoint b now id).1 = 400 ∧
      "message" ∈ (postContactsEndpoint b now id).2.1) ∧
    (2 ≤ (jsTrim b.name).length → (jsTrim b.name).length ≤ 100 →
     isEmailModel b.email = true →
     (∀ s, b.subject = some s → (jsTrim s).length ≤ 200) →
     10 ≤ (jsTrim b.message).length → (jsTrim b.message).length ≤ 2000 →
      (postContactsEndpoint b now id).1 = 201 ∧
      ∃ c, (postContactsEndpoint b now id).2.2 = some c ∧ c.status = "PENDING") := by
  constructor
  · intro hlen
    have hmem : "message" ∈ validateContact b := by
      unfold validateContact
      have hmsg : ¬(10 ≤ (jsTrim b.message).length ∧ (jsTrim b.message).length ≤ 2000) := by
        omega
      rw [if_neg hmsg]
      simp
    have hne : (validateContact b).isEmpty = false := by
      cases hv : validateContact b with
      | nil => rw [hv] at hmem; exact absurd hmem (by simp)
      | cons a l => rfl
    unfold postContactsEndpoint
    rw [hne]
    exact ⟨rfl, hmem⟩
  · intro hn1 hn2 hemail hsubj hm1 hm2
    have hempty : validateContact b = [] := by
      unfold validateContact
      rw [if_pos ⟨hn1, hn2⟩, if_pos hemail, if_pos ⟨hm1, hm2⟩]
      cases hs : b.subject with
      | none => rfl
      | some s =>
        show ([] ++ [] ++ (if (jsTrim s).length ≤ 200 then [] else ["subject"])) ++ [] = []
        rw [if_pos (hsubj s hs)]
        rfl
    unfold postContactsEndpoint
    rw [hempty]
    exact ⟨rfl, _, rfl, rfl⟩

/-- Claim C8 witness: a length-5 message is refused with a 400 naming the
`message` field; the identical request with a length-50 message is accepted
with a 201 and a `PENDING` row. -/
theorem contact_message_validation_witness :
    (postContactsEndpoint ⟨"Ana", "ana@x.com", none, "aaaaa", none⟩ 3 1).1 = 400 ∧
    "message" ∈ (postContactsEndpoint ⟨"Ana", "ana@x.com", none, "aaaaa", none⟩ 3 1).2.1 ∧
    (postContactsEndpoint
        ⟨"Ana", "ana@x.com", none, String.mk (List.replicate 50 'a'), none⟩ 3 1).1 = 201 ∧
    ∃ c, (postContactsEndpoint
        ⟨"Ana", "ana@x.com", none, String.mk (List.replicate 50 'a'), none⟩ 3 1).2.2
          = some c ∧ c.status = "PENDING" := by
  have h1 := (contact_message_validation ⟨"Ana", "ana@x.com", none, "aaaaa", none⟩ 3 1).1
    (by decide)
  have h2 := (contact_message_validation
      ⟨"Ana", "ana@x.com", none, String.mk (List.replicate 50 'a'), none⟩ 3 1).2
    (by decide) (by decide) (by decide) (by intro s hs; cases hs) (by decide) (by decide)
  exact ⟨h1.1, h1.2, h2.1, h2.2⟩

/-- Claim C10 (amended): `validateUpdateContact` admits exactly the statuses
PENDING, IN_PROGRESS, RESOLVED, CLOSED, so the `status === 'RESPONDED'`
branch of `PUT /api/contacts/:id` is unreachable and a validated PUT never
changes `respondedAt`; `PATCH /api/contacts/:id/status` does set
`respondedAt` on a transition into RESPONDED, and RESPONDED and ARCHIVED are
admitted by the PATCH whitelist while rejected by `validateUpdateContact` —
but PATCH is not the only route that can set `respondedAt`:
`POST /api/contacts/bulk-update` with status RESPONDED sets it too. -/
theorem put_contact_never_sets_respondedAt (s : String) (c : ContactRec)
    (st : Option String) (ag : Bool) (an : Option String) (now : Nat) :
    (validUpdateContactStatus (some s) = true ↔
      s = "PENDING" ∨ s = "IN_PROGRESS" ∨ s = "RESOLVED" ∨ s = "CLOSED") ∧
    (validUpdateContactStatus st = true →
      (putContactUpdate c st ag an now).respondedAt = c.respondedAt) ∧
    (validUpdateContactStatus (some "RESPONDED") = false ∧
      validUpdateContactStatus (some "ARCHIVED") = false ∧
      patchStatusAllowed.contains "RESPONDED" = true ∧
      patchStatusAllowed.contains "ARCHIVED" = true) ∧
    (c.status ≠ "RESPONDED" →
      (patchContactStatus [c] c.id (some "RESPONDED") now).2.map
          (fun q => q.respondedAt) = [some now]) ∧
    (c.respondedAt = none →
      (bulkUpdateContacts [c] [c.id] (some "RESPONDED") none now).2.1.map
          (fun q => q.respondedAt) = [some now]) := by
  refine ⟨?_, ?_, ⟨rfl, rfl, rfl, rfl⟩, ?_, ?_⟩
  · unfold validUpdateContactStatus
    simp [List.contains]
  · intro hv
    unfold putContactUpdate
    cases st with
    | none =>
      cases ag <;> rfl
    | some sv =>
      unfold validUpdateContactStatus at hv
      have hsv : sv = "PENDING" ∨ sv = "IN_PROGRESS" ∨ sv = "RESOLVED" ∨ sv = "CLOSED" := by
        have := List.elem_iff.mp hv
        simpa using this
      have hne : (sv == "RESPONDED") = false := by
        rcases hsv with h | h | h | h <;> rw [h] <;> rfl
      have htr : truthyString sv = true := by
        rcases hsv with h | h | h | h <;> rw [h] <;> rfl
      dsimp only
      rw [htr, if_pos rfl, hne]
      cases ag <;> rfl
  · intro hne
    unfold patchContactStatus
    have hfind : List.find? (fun q => q.id == c.id) [c] = some c := by
      rw [List.find?_cons_of_pos]
      exact beq_iff_eq.mpr rfl
    rw [hfind]
    dsimp only [List.map_cons, List.map_nil]
    have hcond : ("RESPONDED" == "RESPONDED" && !(c.status == "RESPONDED")) = true := by
      rw [Bool.and_eq_true]
      exact ⟨rfl, by rw [Bool.not_eq_true', Bool.eq_false_iff]
                     exact fun hc => hne (beq_iff_eq.mp hc)⟩
    rw [if_pos (beq_iff_eq.mpr rfl), if_pos hcond]
    rfl
  · intro hnone
    unfold bulkUpdateContacts
    have hcontain : ([c.id].contains c.id) = true :=
      List.elem_iff.mpr (List.mem_singleton.mpr rfl)
    simp only [List.map_cons, List.map_nil, hcontain]
    simp [hcontain]
    rw [if_neg (by decide)]
    rfl

/-- Claim C10 counterexample: a bulk update (not a
`PATCH /api/contacts/:id/status` request) with status RESPONDED stamps
`respondedAt` on a contact that had none, so `respondedAt` can be set by a
route other than PATCH. -/
theorem bulk_update_sets_respondedAt :
    (⟨1, "Ana", "ana@x.com", none, "Hola, una consulta.", none, "PENDING", none,
        none, 0, 0⟩ : ContactRec).respondedAt = none ∧
    (bulkUpdateContacts
        [⟨1, "Ana", "ana@x.com", none, "Hola, una consulta.", none, "PENDING", none,
          none, 0, 0⟩] [1] (some "RESPONDED") none 7).1 = 200 ∧
    (bulkUpdateContacts
        [⟨1, "Ana", "ana@x.com", none, "Hola, una consulta.", none, "PENDING", none,
          none, 0, 0⟩] [1] (some "RESPONDED") none 7).2.1.map (fun q => q.respondedAt)
      = [some 7] := by
  refine ⟨rfl, rfl, rfl⟩

/-- Claim C10 witness: under the PUT validator a RESOLVED update leaves the
concrete contact's `respondedAt` untouched, while a PATCH to RESPONDED stamps
it. -/
theorem put_contact_never_sets_respondedAt_witness :
    (putContactUpdate
        ⟨2, "Eva", "eva@x.com", none, "Hola, otra consulta.", none, "PENDING", none,
          none, 0, 0⟩ (some "RESOLVED") true (some "ok") 9).respondedAt = none ∧
    (patchContactStatus
        [⟨2, "Eva", "eva@x.com", none, "Hola, otra consulta.", none, "PENDING", none,
          none, 0, 0⟩] 2 (some "RESPONDED") 9).2.map (fun q => q.respondedAt)
      = [some 9] := by
  have h := put_contact_never_sets_respondedAt "RESOLVED"
    ⟨2, "Eva", "eva@x.com", none, "Hola, otra consulta.", none, "PENDING", none,
      none, 0, 0⟩ (some "RESOLVED") true (some "ok") 9
  exact ⟨h.2.1 (by decide), h.2.2.2.1 (by decide)⟩

/-- Claim C1 (amended): for every account, issuing more than 5 refresh tokens
in succession through `saveRefreshToken` (the persistence step of
`generateTokenPair`) — at strictly increasing instants, each expiry beyond
every instant of the run — leaves exactly 5 records, all owned by the
account and live beyond every instant of the run, carrying precisely the
5 most recently issued token strings (newest first).  The register and login
endpoints do NOT maintain this cap (see the accompanying counterexample). -/
theorem saveRefreshToken_cap_succession (u : Nat) (iss : List Issuance)
    (hp : iss.Pairwise (fun a b => a.time < b.time))
    (he : ∀ p ∈ iss, ∀ q ∈ iss, p.time < q.expiresAt)
    (hn : 5 < iss.length) :
    (issueAll u iss ⟨[], 0⟩).records.length = 5 ∧
    (issueAll u iss ⟨[], 0⟩).records.map (fun r => r.token)
      = (iss.reverse.take 5).map (fun i => i.token) ∧
    (∀ r ∈ (issueAll u iss ⟨[], 0⟩).records, r.userId = u) ∧
    (∀ r ∈ (issueAll u iss ⟨[], 0⟩).records, ∀ q ∈ iss, q.time < r.expiresAt) := by
  have h0 : issueAll u iss ⟨[], 0⟩ = ⟨expectedRecords u iss, iss.length⟩ := by
    have h := issueAll_from u [] iss (by simpa using hp) (by simpa using he)
    simpa [expectedRecords, withIdx] using h
  rw [h0]
  refine ⟨?_, ?_, ?_, ?_⟩
  · rw [length_expectedRecords]
    omega
  · unfold expectedRecords
    rw [List.map_map]
    have h1 : ((fun r : RefreshTokenRec => r.token) ∘ issuanceRec u)
        = fun p : Nat × Issuance => p.2.token := rfl
    have h2 : (fun p : Nat × Issuance => p.2.token)
        = (fun i : Issuance => i.token) ∘ Prod.snd := rfl
    rw [h1, h2, ← List.map_map, List.map_take, List.map_reverse, map_snd_withIdx]
  · intro r hr
    exact (mem_expectedRecords hr).1
  · intro r hr q hq
    obtain ⟨_, q0, hq0, hexp, _⟩ := mem_expectedRecords hr
    rw [hexp]
    exact he q hq q0 hq0

/-- Claim C1 witness: six issuances through `saveRefreshToken` starting from
an empty store end with exactly the five most recent token strings. -/
theorem saveRefreshToken_cap_succession_witness :
    (issueAll 1 [⟨"t1", 1000, 1⟩, ⟨"t2", 1000, 2⟩, ⟨"t3", 1000, 3⟩, ⟨"t4", 1000, 4⟩,
        ⟨"t5", 1000, 5⟩, ⟨"t6", 1000, 6⟩] ⟨[], 0⟩).records.length = 5 ∧
    (issueAll 1 [⟨"t1", 1000, 1⟩, ⟨"t2", 1000, 2⟩, ⟨"t3", 1000, 3⟩, ⟨"t4", 1000, 4⟩,
        ⟨"t5", 1000, 5⟩, ⟨"t6", 1000, 6⟩] ⟨[], 0⟩).records.map (fun r => r.token)
      = ["t6", "t5", "t4", "t3", "t2"] := by
  have h := saveRefreshToken_cap_succession 1
    [⟨"t1", 1000, 1⟩, ⟨"t2", 1000, 2⟩, ⟨"t3", 1000, 3⟩, ⟨"t4", 1000, 4⟩,
     ⟨"t5", 1000, 5⟩, ⟨"t6", 1000, 6⟩] (by decide) (by decide) (by decide)
  refine ⟨h.1, ?_⟩
  rw [h.2.1]
  rfl

/-- Claim C1 counterexample: the cap is NOT maintained by every token-issuing
operation — `POST /api/auth/login` (which only deletes the user's expired
records before inserting, with no cap check, exactly like
`POST /api/auth/register`) turns a store of 5 live records for the account
into one of 6 live records. -/
theorem login_exceeds_cap :
    (liveUserTokens ⟨[⟨0, "t1", 1, 999999999, 1⟩, ⟨1, "t2", 1, 999999999, 2⟩,
        ⟨2, "t3", 1, 999999999, 3⟩, ⟨3, "t4", 1, 999999999, 4⟩,
        ⟨4, "t5", 1, 999999999, 5⟩], 5⟩ 1 10).length = 5 ∧
    (liveUserTokens
        (loginTokenEffect ⟨[⟨0, "t1", 1, 999999999, 1⟩, ⟨1, "t2", 1, 999999999, 2⟩,
          ⟨2, "t3", 1, 999999999, 3⟩, ⟨3, "t4", 1, 999999999, 4⟩,
          ⟨4, "t5", 1, 999999999, 5⟩], 5⟩ 1 "t6" 10) 1 10).length = 6 ∧
    (liveUserTokens
        (registerTokenEffect ⟨[⟨0, "t1", 1, 999999999, 1⟩, ⟨1, "t2", 1, 999999999, 2⟩,
          ⟨2, "t3", 1, 999999999, 3⟩, ⟨3, "t4", 1, 999999999, 4⟩,
          ⟨4, "t5", 1, 999999999, 5⟩], 5⟩ 1 "t6" 10) 1 10).length = 6 := by
  refine ⟨rfl, rfl, rfl⟩

/-- Claim C4 witness: the collapse clause evaluated at a concrete
wrong-secret token. -/
theorem verify_checks_collapsed_witness :
    verifyAccessToken ⟨⟨1, "e@x.com", "USER", "E"⟩, "bad-secret", none, none, 99⟩ 5
        = .ok ⟨1, "e@x.com", "USER", "E"⟩ ∨
    verifyAccessToken ⟨⟨1, "e@x.com", "USER", "E"⟩, "bad-secret", none, none, 99⟩ 5
        = .error "Token de acceso inválido o expirado" :=
  (verify_checks_collapsed ⟨⟨1, "e@x.com", "USER", "E"⟩, "bad-secret", none, none, 99⟩
    ⟨⟨1, "e@x.com", "refresh"⟩, "bad-secret", none, none, 99⟩ 5).2.2.2.1

/-- Claim C6 witness: on a concrete store holding one expired and one live
record, the sweep keeps the live record, accounts for the deleted one, and a
second run is a no-op returning 0. -/
theorem cleanExpiredTokens_exact_witness :
    ((⟨[⟨0, "a", 1, 5, 1⟩, ⟨1, "b", 1, 50, 2⟩], 2⟩ : TokenDB).records.length
      = (cleanExpiredTokens ⟨[⟨0, "a", 1, 5, 1⟩, ⟨1, "b", 1, 50, 2⟩], 2⟩ 10).1.records.length
        + (cleanExpiredTokens ⟨[⟨0, "a", 1, 5, 1⟩, ⟨1, "b", 1, 50, 2⟩], 2⟩ 10).2) ∧
    cleanExpiredTokens (cleanExpiredTokens ⟨[⟨0, "a", 1, 5, 1⟩, ⟨1, "b", 1, 50, 2⟩], 2⟩ 10).1 10
      = ((cleanExpiredTokens ⟨[⟨0, "a", 1, 5, 1⟩, ⟨1, "b", 1, 50, 2⟩], 2⟩ 10).1, 0) :=
  ⟨(cleanExpiredTokens_exact_and_idempotent ⟨[⟨0, "a", 1, 5, 1⟩, ⟨1, "b", 1, 50, 2⟩], 2⟩ 10).2.1,
   (cleanExpiredTokens_exact_and_idempotent ⟨[⟨0, "a", 1, 5, 1⟩, ⟨1, "b", 1, 50, 2⟩], 2⟩ 10).2.2⟩

end Portfolio
